import Mathlib

set_option autoImplicit false

namespace CodeJoin

/-!
Shallow embedding of the sandboxed code-execution engine of the
codejoin-backend repository (file `codeExecution.js`, served by `index.js`).

Modelling conventions:
* JS strings that carry program output travel through the system as UTF-8
  byte sequences; we model them as `List Nat` (each element a byte value).
  Synthetic messages built from string literals are injected via `utf8Bytes`.
* JS numbers appearing in the timeout logic are modelled at integer
  precision (`Int`); `Math.ceil (t / 1000)` on an integer `t` is the exact
  rational ceiling, embedded as `mathCeilDiv t 1000` (a bridge lemma below
  equates it with the mathematical ceiling over `ℚ`).
* The Docker side effects of `runCode` (createContainer, start, the
  race between `container.wait` and the timeout timer, `container.logs`,
  `container.inspect`, stop and remove) are modelled by an environment
  `DockerEnv` recording how each call would resolve; `runCode` then is the
  pure state transformer the source defines over those outcomes.
* The `while` loop of `parseDockerLogs` is embedded as a fuel-indexed
  recursion; every loop iteration consumes at least 8 bytes of the buffer,
  so fuel `buffer.length + 1` never runs out.
-/

deriving instance DecidableEq for Except

/-! ## Byte-string utilities -/

/-- UTF-8 encoding of one character (standard 1-4 byte encoding). -/
def utf8EncodeChar (c : Char) : List Nat :=
  let n := c.toNat
  if n < 128 then [n]
  else if n < 2048 then [192 + n / 64, 128 + n % 64]
  else if n < 65536 then [224 + n / 4096, 128 + n / 64 % 64, 128 + n % 64]
  else [240 + n / 262144, 128 + n / 4096 % 64, 128 + n / 64 % 64, 128 + n % 64]

/-- UTF-8 bytes of a string; used to inject the string literals of the
source into the byte-level model of program output. -/
def utf8Bytes (s : String) : List Nat :=
  s.data.flatMap utf8EncodeChar

/-- Whitespace bytes removed by `String.prototype.trim` (at the byte level:
space, tab, line feed, vertical tab, form feed, carriage return). -/
def isSpaceByte (b : Nat) : Bool :=
  b == 32 || b == 9 || b == 10 || b == 11 || b == 12 || b == 13

/-- JS `.trim()` modelled on byte sequences: drop leading and trailing
whitespace bytes. -/
def trimBytes (l : List Nat) : List Nat :=
  ((l.dropWhile isSpaceByte).reverse.dropWhile isSpaceByte).reverse

/-! ## Language profiles (`LANGUAGE_CONFIG` in codeExecution.js) -/

/-- One entry of `LANGUAGE_CONFIG`: image, file extension and the shell
command template run inside the container. -/
structure LangConfig where
  image : String
  extension : String
  runCommand : String → String

/-- JS `String.prototype.replace` with a plain string pattern: replace the
first occurrence of `pat` (here on character lists). -/
def replaceFirstList : List Char → List Char → List Char → List Char
  | [], _, _ => []
  | c :: rest, pat, rep =>
    if pat.isPrefixOf (c :: rest) then rep ++ (c :: rest).drop pat.length
    else c :: replaceFirstList rest pat rep

/-- String wrapper of `replaceFirstList`, mirroring `filename.replace(pat, rep)`
with a string (non-regex) pattern. -/
def replaceFirst (s pat rep : String) : String :=
  ⟨replaceFirstList s.data pat.data rep.data⟩

/-- JS `code.replace(/\x27/g, ...)`: every single quote (byte 39) is replaced
by the shell-quoting idiom quote-doublequote-quote-doublequote-quote. -/
def escapeSingleQuotes (code : String) : String :=
  ⟨code.data.flatMap fun c =>
    if c = Char.ofNat 39 then "\x27\x22\x27\x22\x27".data else [c]⟩

/-- The `LANGUAGE_CONFIG` table of codeExecution.js. -/
def LANGUAGE_CONFIG (language : String) : Option LangConfig :=
  if language = "javascript" then
    some ⟨"node:18-alpine", ".js", fun filename => "node " ++ filename⟩
  else if language = "python" then
    some ⟨"python:3.11-alpine", ".py", fun filename => "python " ++ filename⟩
  else if language = "java" then
    some ⟨"openjdk:17-alpine", ".java", fun filename =>
      "javac " ++ filename ++ " && java " ++ replaceFirst filename ".java" ""⟩
  else if language = "cpp" then
    some ⟨"gcc:latest", ".cpp", fun filename =>
      "g++ -o " ++ replaceFirst filename ".cpp" "" ++ " " ++ filename ++
        " && ./" ++ replaceFirst filename ".cpp" ""⟩
  else if language = "c" then
    some ⟨"gcc:latest", ".c", fun filename =>
      "gcc -o " ++ replaceFirst filename ".c" "" ++ " " ++ filename ++
        " && ./" ++ replaceFirst filename ".c" ""⟩
  else none

/-- Shell command passed to the container, from `docker.createContainer` in
`runCode`: write the escaped code into `main<ext>` with `echo`, then invoke
the run command of the profile. The validated `input` of the request is a
parameter of `runCode` in the source but is never used in the command. -/
def shellCommand (config : LangConfig) (code : String) (input : Option String) : String :=
  let _ := input
  let filename := "main" ++ config.extension
  "echo \x27" ++ escapeSingleQuotes code ++ "\x27 > " ++ filename ++
    " && " ++ config.runCommand filename

/-- The `Cmd` array of the `docker.createContainer` call. -/
def containerCmd (config : LangConfig) (code : String) (input : Option String) : List String :=
  ["sh", "-c", shellCommand config code input]

/-- The full argument object of the `docker.createContainer` call in
`runCode`: image, command, working directory, the host-config resource
bounds, and the two attach flags. No field of the call mentions the request
input and no stdin attachment exists. -/
structure ContainerCreateArgs where
  Image : String
  Cmd : List String
  WorkingDir : String
  MemoryBytes : Nat
  CpuQuota : Nat
  NetworkMode : String
  ReadonlyRootfs : Bool
  TmpfsApp : String
  AttachStdout : Bool
  AttachStderr : Bool
  deriving DecidableEq, Repr

/-- The argument object built by `runCode` for `docker.createContainer`. -/
def createContainerArgs (config : LangConfig) (code : String)
    (input : Option String) : ContainerCreateArgs :=
  { Image := config.image
    Cmd := containerCmd config code input
    WorkingDir := "/app"
    MemoryBytes := 128 * 1024 * 1024
    CpuQuota := 50000
    NetworkMode := "none"
    ReadonlyRootfs := true
    TmpfsApp := "rw,size=10m"
    AttachStdout := true
    AttachStderr := true }

/-! ## Request validation (`executionRequestSchema` and the start of
`executeCode`) -/

/-- Exact integer ceiling of `a / b` for positive `b`, written with floor
division as `-((-a).fdiv b)`; embeds `Math.ceil(timeout / 1000)` at integer
precision. -/
def mathCeilDiv (a b : Int) : Int :=
  -((-a).fdiv b)

/-- Pre-validation step of `executeCode`: a truthy timeout strictly greater
than 1000 is assumed to be milliseconds and replaced by
`Math.ceil(timeout / 1000)`. -/
def preNormalizeTimeout (t : Option Int) : Option Int :=
  match t with
  | none => none
  | some v => if v ≠ 0 ∧ v > 1000 then some (mathCeilDiv v 1000) else some v

/-- Joi rule `Joi.number().min(1).default(10)` for the timeout field. -/
def validateTimeout (t : Option Int) : Except String Int :=
  match t with
  | none => .ok 10
  | some v =>
    if 1 ≤ v then .ok v
    else .error "\x22timeout\x22 must be greater than or equal to 1"

/-- Full normalization pipeline for the timeout field: the millisecond
heuristic of `executeCode` followed by the Joi rule. -/
def normalizeTimeout (t : Option Int) : Except String Int :=
  validateTimeout (preNormalizeTimeout t)

/-- Languages accepted by `executionRequestSchema`. -/
def supportedLanguages : List String :=
  ["javascript", "python", "java", "cpp", "c"]

/-- A request that passed Joi validation. -/
structure ValidRequest where
  language : String
  code : String
  input : Option String
  timeout : Int
  deriving DecidableEq, Repr

/-- The Joi schema `executionRequestSchema`: language must be one of the
supported five, code at most 50000 characters, input (when present) at most
10000 characters, timeout at least 1 with default 10. -/
def validateRequest (language code : String) (input : Option String)
    (timeout : Option Int) : Except String ValidRequest :=
  if language ∉ supportedLanguages then
    .error "\x22language\x22 must be one of [javascript, python, java, cpp, c]"
  else if code.length > 50000 then
    .error "\x22code\x22 length must be less than or equal to 50000 characters long"
  else if (input.getD "").length > 10000 then
    .error "\x22input\x22 length must be less than or equal to 10000 characters long"
  else
    (validateTimeout timeout).map fun t => ⟨language, code, input, t⟩

/-! ## Execution records and the store -/

/-- Status values the source ever writes into a record. -/
inductive ExecStatus
  | pending
  | completed
  | failed
  deriving DecidableEq, Repr

/-- Status string stored in the JS record. -/
def statusString : ExecStatus → String
  | .pending => "pending"
  | .completed => "completed"
  | .failed => "failed"

/-- The execution record object created by `executeCode` and terminally
mutated by `runCode`. Timestamps are abstracted to `Nat` instants; `output`
and `error` are byte strings once populated. -/
structure Record where
  id : String
  status : ExecStatus
  language : String
  code : String
  input : Option String
  timeout : Int
  startTime : Nat
  endTime : Option Nat
  output : Option (List Nat)
  error : Option (List Nat)
  deriving DecidableEq, Repr

/-- JSON-like values, for stating which named fields a stored record has. -/
inductive JVal
  | s (v : String)
  | bytes (v : List Nat)
  | n (v : Int)
  | null
  deriving DecidableEq, Repr

/-- The field names and values of the execution object literal in
`executeCode` (and hence of the JSON stored by `storeExecution` and returned
by the status endpoint), in source order. -/
def recordToJson (r : Record) : List (String × JVal) :=
  [("id", .s r.id),
   ("status", .s (statusString r.status)),
   ("language", .s r.language),
   ("code", .s r.code),
   ("input", match r.input with | some i => .s i | none => .null),
   ("timeout", .n r.timeout),
   ("startTime", .n (r.startTime : Int)),
   ("endTime", match r.endTime with | some t => .n (t : Int) | none => .null),
   ("output", match r.output with | some o => .bytes o | none => .null),
   ("error", match r.error with | some e => .bytes e | none => .null)]

/-- The in-memory execution store (`memoryStorage` / the Redis cache),
modelled as an association list with most recent write first. -/
abbrev Store := List (String × Record)

/-- `storeExecution`: overwrite the entry for `id` (lookup returns the most
recent write). -/
def storePut (store : Store) (id : String) (r : Record) : Store :=
  (id, r) :: store

/-- `getExecutionStatus`: read a record from the store, failing when the id
is absent. -/
def getExecutionStatus (store : Store) (id : String) : Except String Record :=
  match store.lookup id with
  | some r => .ok r
  | none => .error "Execution not found"

/-- The pending record created by `executeCode` after validation. -/
def mkPendingRecord (id language code : String) (input : Option String)
    (timeout : Int) (t0 : Nat) : Record :=
  { id := id, status := .pending, language := language, code := code,
    input := input, timeout := timeout, startTime := t0, endTime := none,
    output := none, error := none }

/-- Response returned by `executeCode` on success. -/
structure SubmitResponse where
  executionId : String
  status : String
  message : String
  deriving DecidableEq, Repr

/-- The synchronous part of `executeCode`: pre-normalize the timeout,
validate, then create and store a pending record and answer immediately
(`runCode` is launched without being awaited). On a validation error the
function throws and the store is untouched. -/
def executeCode (language code : String) (input : Option String)
    (timeout : Option Int) (store : Store) (newId : String) (t0 : Nat) :
    Except String SubmitResponse × Store :=
  match validateRequest language code input (preNormalizeTimeout timeout) with
  | .error e => (.error ("Validation error: " ++ e), store)
  | .ok v =>
    let execution := mkPendingRecord newId v.language v.code v.input v.timeout t0
    (.ok ⟨newId, "pending", "Code execution started"⟩,
      storePut store newId execution)

/-! ## Output demultiplexer (`parseDockerLogs`) -/

/-- Result of `getContainerOutput` / `parseDockerLogs`. -/
structure ContainerOutput where
  stdout : List Nat
  stderr : List Nat
  deriving DecidableEq, Repr

/-- `buffer.readUInt32BE(off)`: big-endian unsigned 32-bit read. -/
def readUInt32BE (buf : List Nat) (off : Nat) : Nat :=
  buf.getD off 0 * 16777216 + buf.getD (off + 1) 0 * 65536 +
    buf.getD (off + 2) 0 * 256 + buf.getD (off + 3) 0

/-- The frame-scanning `while` loop of `parseDockerLogs`, with explicit
fuel (each iteration advances the offset by at least 8 bytes, so fuel
`buf.length + 1` suffices). Accumulates the stdout and stderr chunk lists
in push order. -/
def parseFramesLoop (buf : List Nat) (fuel offset : Nat)
    (stdout stderr : List (List Nat)) : List (List Nat) × List (List Nat) :=
  match fuel with
  | 0 => (stdout, stderr)
  | fuel + 1 =>
    if offset + 8 ≤ buf.length then
      let streamType := buf.getD offset 0
      let frameLength := readUInt32BE buf (offset + 4)
      let frameStart := offset + 8
      let frameEnd := frameStart + frameLength
      if buf.length < frameEnd then (stdout, stderr)
      else
        let chunk := (buf.drop frameStart).take frameLength
        if streamType = 1 then
          parseFramesLoop buf fuel frameEnd (stdout ++ [chunk]) stderr
        else if streamType = 2 then
          parseFramesLoop buf fuel frameEnd stdout (stderr ++ [chunk])
        else
          parseFramesLoop buf fuel frameEnd (stdout ++ [chunk]) stderr
    else (stdout, stderr)

/-- `parseDockerLogs`: demultiplex the Docker log buffer; when no frame was
parsed at all, fall back to treating the whole buffer as plain text on
stdout. -/
def parseDockerLogs (buffer : List Nat) : ContainerOutput :=
  let parsed := parseFramesLoop buffer (buffer.length + 1) 0 [] []
  if parsed.1.length = 0 ∧ parsed.2.length = 0 then
    ⟨trimBytes buffer, []⟩
  else
    ⟨trimBytes parsed.1.flatten, trimBytes parsed.2.flatten⟩

/-- `getContainerOutput`: try `container.logs`; on a logs error fall back to
`container.inspect` (distinct messages from the first fallback branch); on a
non-empty buffer demultiplex it; on an empty buffer decide by the exit code.
Every error is absorbed; the outer catch converts an inspect failure into an
error-capturing message. The function never throws. -/
def getContainerOutput (logs : Except String (List Nat))
    (inspectExitCode : Except String Int) : ContainerOutput :=
  match logs with
  | .error _ =>
    match inspectExitCode with
    | .ok exitCode =>
      if exitCode = 0 then
        ⟨utf8Bytes "Program executed successfully", []⟩
      else
        ⟨[], utf8Bytes ("Container failed with exit code " ++ toString exitCode)⟩
    | .error e => ⟨[], utf8Bytes ("Error capturing output: " ++ e)⟩
  | .ok buffer =>
    if buffer.length > 0 then parseDockerLogs buffer
    else
      match inspectExitCode with
      | .ok exitCode =>
        if exitCode = 0 then
          ⟨utf8Bytes "Program executed successfully (no output captured)", []⟩
        else
          ⟨[], utf8Bytes ("Container exited with code " ++ toString exitCode)⟩
      | .error e => ⟨[], utf8Bytes ("Error capturing output: " ++ e)⟩

/-! ## Container orchestration (`runCode`) -/

/-- Outcome of `Promise.race([executionPromise, timeoutPromise])`. -/
inductive RaceOutcome
  | waitOk
  | waitErr (msg : String)
  | timedOut
  deriving DecidableEq, Repr

/-- Resolutions of the Docker engine calls made by one `runCode` run. -/
structure DockerEnv where
  createResult : Except String Unit
  startResult : Except String Unit
  race : RaceOutcome
  logs : Except String (List Nat)
  inspectExitCode : Except String Int
  removeOnSuccess : Except String Unit
  stopInCatch : Except String Unit
  removeInCatch : Except String Unit

/-- One cleanup call issued against the container, with its resolution. -/
inductive CleanupCall
  | stopContainer (result : Except String Unit)
  | removeContainer (result : Except String Unit)

/-- The terminal mutation performed in the catch block of `runCode`. -/
def failTerminal (execution : Record) (msg : String) (tEnd : Nat) : Record :=
  { execution with
    status := .failed
    error := some (utf8Bytes msg)
    endTime := some tEnd }

/-- Cleanup attempted by the catch block when the container variable is
assigned: stop with zero grace period, then forced remove; both wrapped in
their own try blocks whose failures are only logged. -/
def catchCleanup (env : DockerEnv) : List CleanupCall :=
  [.stopContainer env.stopInCatch, .removeContainer env.removeInCatch]

/-- The `runCode` control flow as a pure transformer: given the record read
back from the store and the resolutions of the Docker calls, produce the
record as terminally mutated and the list of cleanup calls issued. On the
success path `container.remove` is awaited inside the try block, before the
terminal `completed` assignment; a remove failure there therefore lands in
the catch block. -/
def runCode (execution : Record) (env : DockerEnv) (tEnd : Nat) :
    Record × List CleanupCall :=
  match env.createResult with
  | .error e => (failTerminal execution e tEnd, [])
  | .ok _ =>
    match env.startResult with
    | .error e => (failTerminal execution e tEnd, catchCleanup env)
    | .ok _ =>
      match env.race with
      | .timedOut =>
        (failTerminal execution "Execution timeout" tEnd, catchCleanup env)
      | .waitErr e => (failTerminal execution e tEnd, catchCleanup env)
      | .waitOk =>
        let result := getContainerOutput env.logs env.inspectExitCode
        match env.removeOnSuccess with
        | .error e =>
          (failTerminal execution e tEnd,
            CleanupCall.removeContainer (.error e) :: catchCleanup env)
        | .ok _ =>
          ({ execution with
             status := .completed
             output := some result.stdout
             error := some result.stderr
             endTime := some tEnd },
           [CleanupCall.removeContainer (.ok ())])

/-- Store writes performed for one accepted execution, in order: the pending
record written by `executeCode`, then the single terminal write at the end
of `runCode`. -/
def executionTrace (id language code : String) (input : Option String)
    (timeout : Int) (t0 tEnd : Nat) (env : DockerEnv) : List Record :=
  let execution := mkPendingRecord id language code input timeout t0
  [execution, (runCode execution env tEnd).1]

/-- A record is terminal when its status is completed or failed. -/
def IsTerminal (r : Record) : Prop :=
  r.status = .completed ∨ r.status = .failed

/-! ## Frame encoding (statement-side, for the demultiplexer claims) -/

/-- One well-formed Docker log frame: stream selector plus payload. -/
structure LogFrame where
  selector : Nat
  payload : List Nat
  deriving DecidableEq, Repr

/-- Big-endian 32-bit encoding of a length. -/
def be32 (n : Nat) : List Nat :=
  [n / 16777216 % 256, n / 65536 % 256, n / 256 % 256, n % 256]

/-- Wire encoding of one frame: 8-byte header (selector, three reserved
zero bytes, big-endian payload length), then the payload. -/
def encodeFrame (f : LogFrame) : List Nat :=
  [f.selector, 0, 0, 0] ++ be32 f.payload.length ++ f.payload

/-- Wire encoding of a frame sequence. -/
def encodeFrames (fs : List LogFrame) : List Nat :=
  (fs.map encodeFrame).flatten

/-- A frame is well formed when its bytes are bytes and its payload length
fits in an unsigned 32-bit header field. -/
def WellFormedFrame (f : LogFrame) : Prop :=
  f.selector < 256 ∧ (∀ b ∈ f.payload, b < 256) ∧ f.payload.length < 4294967296

/-- A trailing byte sequence after which parsing must stop: it is too short
to hold a header, or its announced payload would overrun it. -/
def IncompleteTail (rest : List Nat) : Prop :=
  rest.length < 8 ∨ rest.length < 8 + readUInt32BE rest 4

instance (f : LogFrame) : Decidable (WellFormedFrame f) := by
  unfold WellFormedFrame; infer_instance

instance (rest : List Nat) : Decidable (IncompleteTail rest) := by
  unfold IncompleteTail; infer_instance

instance (r : Record) : Decidable (IsTerminal r) := by
  unfold IsTerminal; infer_instance

/-! ## Helper lemmas -/

theorem getD_drop (l : List Nat) (i j : Nat) :
    (l.drop i).getD j 0 = l.getD (i + j) 0 := by
  simp [List.getD, List.getElem?_drop]

theorem readUInt32BE_drop (buf : List Nat) (k j : Nat) :
    readUInt32BE (buf.drop k) j = readUInt32BE buf (k + j) := by
  simp [readUInt32BE, getD_drop, Nat.add_assoc]

theorem length_encodeFrame (f : LogFrame) :
    (encodeFrame f).length = 8 + f.payload.length := by
  simp [encodeFrame, be32]; omega

theorem encodeFrames_cons (f : LogFrame) (fs : List LogFrame) :
    encodeFrames (f :: fs) = encodeFrame f ++ encodeFrames fs := by
  simp [encodeFrames]

theorem readUInt32BE_encodeFrame (f : LogFrame) (t : List Nat)
    (h : f.payload.length < 4294967296) :
    readUInt32BE (encodeFrame f ++ t) 4 = f.payload.length := by
  simp [encodeFrame, be32, readUInt32BE, List.getD]
  omega

theorem drop8_encodeFrame (f : LogFrame) (t : List Nat) :
    (encodeFrame f ++ t).drop 8 = f.payload ++ t := by
  simp [encodeFrame, be32]

theorem dropAll_encodeFrame (f : LogFrame) (t : List Nat) :
    (encodeFrame f ++ t).drop (8 + f.payload.length) = t := by
  rw [show 8 + f.payload.length = (encodeFrame f).length from (length_encodeFrame f).symm]
  exact List.drop_left _ _

theorem take_payload (f : LogFrame) (t : List Nat) :
    (f.payload ++ t).take f.payload.length = f.payload := List.take_left _ _

/-- Behaviour of the frame-scanning loop on a buffer that is an encoded
frame sequence followed by an incomplete tail: every encoded frame is
consumed into the accumulator of its stream, and scanning stops at the
tail. -/
theorem parseFramesLoop_spec (fs : List LogFrame) :
    ∀ (buf rest : List Nat) (offset fuel : Nat) (so se : List (List Nat)),
      buf.drop offset = encodeFrames fs ++ rest →
      offset ≤ buf.length →
      IncompleteTail rest →
      (∀ f ∈ fs, WellFormedFrame f) →
      fs.length ≤ fuel →
      parseFramesLoop buf fuel offset so se =
        (so ++ (fs.filter (fun f => f.selector != 2)).map LogFrame.payload,
         se ++ (fs.filter (fun f => f.selector == 2)).map LogFrame.payload) := by
  induction fs with
  | nil =>
    intro buf rest offset fuel so se hdrop hoff htail _ _
    have hlen : buf.length - offset = rest.length := by
      have := congrArg List.length hdrop
      simpa [encodeFrames] using this
    have hres : parseFramesLoop buf fuel offset so se = (so, se) := by
      cases fuel with
      | zero => rfl
      | succ fuel =>
        rcases htail with h8 | hovr
        · have : ¬ (offset + 8 ≤ buf.length) := by omega
          simp [parseFramesLoop, this]
        · by_cases h8 : offset + 8 ≤ buf.length
          · have hread : readUInt32BE buf (offset + 4) = readUInt32BE rest 4 := by
              have h := readUInt32BE_drop buf offset 4
              rw [hdrop] at h
              simp only [encodeFrames, List.map_nil, List.flatten_nil,
                List.nil_append] at h
              exact h.symm
            have : buf.length < offset + 8 + readUInt32BE buf (offset + 4) := by
              rw [hread]; omega
            simp [parseFramesLoop, h8, this]
          · simp [parseFramesLoop, h8]
    simp [hres]
  | cons f fs ih =>
    intro buf rest offset fuel so se hdrop hoff htail hwf hfuel
    obtain ⟨hsel, _, hlen32⟩ := hwf f (by simp)
    cases fuel with
    | zero => simp at hfuel
    | succ fuel =>
      rw [encodeFrames_cons, List.append_assoc] at hdrop
      set t := encodeFrames fs ++ rest with ht
      have hlen : buf.length - offset = 8 + f.payload.length + t.length := by
        have := congrArg List.length hdrop
        simp [length_encodeFrame] at this
        omega
      have h8 : offset + 8 ≤ buf.length := by omega
      have hst : buf.getD offset 0 = f.selector := by
        have := getD_drop buf offset 0
        rw [hdrop] at this
        simpa [encodeFrame] using this.symm
      have hread : readUInt32BE buf (offset + 4) = f.payload.length := by
        have := readUInt32BE_drop buf offset 4
        rw [hdrop] at this
        rw [← this, readUInt32BE_encodeFrame f t hlen32]
      have hnoovr : ¬ (buf.length < offset + 8 + f.payload.length) := by omega
      have hchunk : (buf.drop (offset + 8)).take (readUInt32BE buf (offset + 4)) = f.payload := by
        rw [hread, ← List.drop_drop, hdrop, drop8_encodeFrame, take_payload]
      have hdropnext : buf.drop (offset + 8 + f.payload.length) = encodeFrames fs ++ rest := by
        rw [show offset + 8 + f.payload.length = offset + (8 + f.payload.length) by omega,
          ← List.drop_drop, hdrop, dropAll_encodeFrame]
      have hoff' : offset + 8 + f.payload.length ≤ buf.length := by omega
      have hwf' : ∀ g ∈ fs, WellFormedFrame g := fun g hg => hwf g (by simp [hg])
      have hfuel' : fs.length ≤ fuel := by simp at hfuel; omega
      by_cases hs1 : f.selector = 1
      · have hstep : parseFramesLoop buf (fuel + 1) offset so se =
            parseFramesLoop buf fuel (offset + 8 + readUInt32BE buf (offset + 4))
              (so ++ [(buf.drop (offset + 8)).take (readUInt32BE buf (offset + 4))]) se := by
          simp only [parseFramesLoop]
          rw [if_pos h8, hst]
          rw [← hread] at hnoovr
          rw [if_neg hnoovr, if_pos hs1]
        rw [hstep, hchunk, hread,
          ih buf rest (offset + 8 + f.payload.length) fuel (so ++ [f.payload]) se
            hdropnext hoff' htail hwf' hfuel']
        simp [hs1, List.filter_cons]
      · by_cases hs2 : f.selector = 2
        · have hstep : parseFramesLoop buf (fuel + 1) offset so se =
              parseFramesLoop buf fuel (offset + 8 + readUInt32BE buf (offset + 4))
                so (se ++ [(buf.drop (offset + 8)).take (readUInt32BE buf (offset + 4))]) := by
            simp only [parseFramesLoop]
            rw [if_pos h8, hst]
            rw [← hread] at hnoovr
            rw [if_neg hnoovr, if_neg hs1, if_pos hs2]
          rw [hstep, hchunk, hread,
            ih buf rest (offset + 8 + f.payload.length) fuel so (se ++ [f.payload])
              hdropnext hoff' htail hwf' hfuel']
          simp [hs2, List.filter_cons]
        · have hstep : parseFramesLoop buf (fuel + 1) offset so se =
              parseFramesLoop buf fuel (offset + 8 + readUInt32BE buf (offset + 4))
                (so ++ [(buf.drop (offset + 8)).take (readUInt32BE buf (offset + 4))]) se := by
            simp only [parseFramesLoop]
            rw [if_pos h8, hst]
            rw [← hread] at hnoovr
            rw [if_neg hnoovr, if_neg hs1, if_neg hs2]
          rw [hstep, hchunk, hread,
            ih buf rest (offset + 8 + f.payload.length) fuel (so ++ [f.payload]) se
              hdropnext hoff' htail hwf' hfuel']
          simp [hs1, hs2, List.filter_cons]

theorem le_length_encodeFrames (fs : List LogFrame) :
    fs.length ≤ (encodeFrames fs).length := by
  induction fs with
  | nil => simp [encodeFrames]
  | cons f fs ih =>
    rw [encodeFrames_cons]
    simp only [List.length_cons, List.length_append, length_encodeFrame]
    omega

theorem utf8Bytes_append (s t : String) :
    utf8Bytes (s ++ t) = utf8Bytes s ++ utf8Bytes t := by
  simp [utf8Bytes, String.data_append]

/-- Every run of `runCode` ends in exactly one terminal write: the stored
record carries the end timestamp and a terminal status, whatever the Docker
calls did. -/
theorem runCode_terminal (execution : Record) (env : DockerEnv) (tEnd : Nat) :
    (runCode execution env tEnd).1.endTime = some tEnd ∧
      IsTerminal (runCode execution env tEnd).1 := by
  obtain ⟨cr, st, ra, lg, ins, rs, sc, rc⟩ := env
  cases cr <;> cases st <;> cases ra <;> cases rs <;>
    simp [runCode, failTerminal, IsTerminal]

/-- Bridge lemma: the integer-level embedding of `Math.ceil(t / 1000)`
agrees with the mathematical ceiling of the exact rational quotient. -/
theorem mathCeilDiv_eq_ceil (a : Int) : mathCeilDiv a 1000 = ⌈(a : ℚ) / 1000⌉ := by
  rw [mathCeilDiv, Int.fdiv_eq_ediv _ (by norm_num)]
  rw [show ⌈(a : ℚ) / 1000⌉ = -⌊-((a : ℚ) / 1000)⌋ by rw [← Int.ceil_neg, neg_neg]]
  have h : -((a : ℚ) / 1000) = ((-a : ℤ) : ℚ) / ((1000 : ℕ) : ℚ) := by push_cast; ring
  rw [h, Rat.floor_intCast_div_natCast]
  norm_num

/-! ## Claim C4: demultiplexer round trip -/

/-- Claim C4: a buffer built from well-formed frames (optionally followed
by an incomplete tail at which parsing stops) demultiplexes to the trimmed
concatenation of the payloads with selector other than 2 on stdout and the
trimmed concatenation of the selector-2 payloads on stderr. -/
theorem spec_C4_demux (fs : List LogFrame) (rest : List Nat)
    (hwf : ∀ f ∈ fs, WellFormedFrame f) (hne : fs ≠ [])
    (htail : IncompleteTail rest) :
    parseDockerLogs (encodeFrames fs ++ rest) =
      ⟨trimBytes ((fs.filter (fun f => f.selector != 2)).map LogFrame.payload).flatten,
       trimBytes ((fs.filter (fun f => f.selector == 2)).map LogFrame.payload).flatten⟩ := by
  have hfuel : fs.length ≤ (encodeFrames fs ++ rest).length + 1 := by
    have := le_length_encodeFrames fs
    simp only [List.length_append]
    omega
  have hloop := parseFramesLoop_spec fs (encodeFrames fs ++ rest) rest 0
      ((encodeFrames fs ++ rest).length + 1) [] [] (by simp) (by simp) htail hwf hfuel
  have hcases : ¬ (((fs.filter (fun f => f.selector != 2)).map LogFrame.payload).length = 0 ∧
      ((fs.filter (fun f => f.selector == 2)).map LogFrame.payload).length = 0) := by
    cases fs with
    | nil => exact absurd rfl hne
    | cons f fs =>
      by_cases h2 : f.selector = 2
      · rintro ⟨-, hb⟩
        revert hb
        simp [List.filter_cons, h2]
      · rintro ⟨ha, -⟩
        revert ha
        simp [List.filter_cons, h2]
  simp only [parseDockerLogs, hloop, List.nil_append]
  rw [if_neg hcases]

/-- Witness for C4: two concrete frames, one per stream, with an empty tail. -/
theorem spec_C4_demux_witness :
    parseDockerLogs (encodeFrames [⟨1, [104, 105]⟩, ⟨2, [101, 33]⟩] ++ []) =
      ⟨trimBytes ((([⟨1, [104, 105]⟩, ⟨2, [101, 33]⟩] : List LogFrame).filter
          (fun f => f.selector != 2)).map LogFrame.payload).flatten,
       trimBytes ((([⟨1, [104, 105]⟩, ⟨2, [101, 33]⟩] : List LogFrame).filter
          (fun f => f.selector == 2)).map LogFrame.payload).flatten⟩ :=
  spec_C4_demux _ _ (by decide) (by decide) (by decide)

/-! ## Claim C1: cleanup failures and the terminal status -/

/-- Claim C1 (amended): the stop and remove calls issued from the catch
block never influence the stored record (their outcomes are only logged);
but the forced remove on the success path runs inside the try block before
the terminal `completed` assignment, so when it throws, the execution is
instead recorded as failed with the removal error message. -/
theorem spec_C1_cleanup (execution : Record) (env : DockerEnv) (tEnd : Nat)
    (s r : Except String Unit) (e : String) :
    ((runCode execution
        { env with stopInCatch := s, removeInCatch := r } tEnd).1 =
      (runCode execution env tEnd).1) ∧
    (env.createResult = .ok () → env.startResult = .ok () → env.race = .waitOk →
      env.removeOnSuccess = .error e →
      (runCode execution env tEnd).1 = failTerminal execution e tEnd) := by
  obtain ⟨cr, st, ra, lg, ins, rs, sc, rc⟩ := env
  constructor
  · cases cr <;> cases st <;> cases ra <;> cases rs <;> simp [runCode]
  · intro h1 h2 h3 h4
    dsimp only at h1 h2 h3 h4
    subst h1; subst h2; subst h3; subst h4
    simp [runCode]

/-- Counterexample to C1 as stated: a run whose container exits normally
and whose output is collected, but whose remove call throws, is stored as
failed with the removal error recorded in the error field, not as
completed. -/
theorem spec_C1_counterexample :
    ((runCode (mkPendingRecord "id1" "python" "print(1)" none 10 0)
        ⟨.ok (), .ok (), .waitOk, .ok [104, 105], .ok 0, .error "remove boom", .ok (), .ok ()⟩
        7).1.status = ExecStatus.failed) ∧
    ((runCode (mkPendingRecord "id1" "python" "print(1)" none 10 0)
        ⟨.ok (), .ok (), .waitOk, .ok [104, 105], .ok 0, .error "remove boom", .ok (), .ok ()⟩
        7).1.error = some (utf8Bytes "remove boom")) := by decide

/-- Witness for the amended C1 at a concrete environment. -/
theorem spec_C1_witness :
    ((runCode (mkPendingRecord "id2" "python" "x" none 10 0)
        { createResult := .ok (), startResult := .ok (), race := .waitOk,
          logs := .ok [104], inspectExitCode := .ok 0,
          removeOnSuccess := .error "boom", stopInCatch := .error "stop fails",
          removeInCatch := .error "remove fails" } 3).1 =
      (runCode (mkPendingRecord "id2" "python" "x" none 10 0)
        { createResult := .ok (), startResult := .ok (), race := .waitOk,
          logs := .ok [104], inspectExitCode := .ok 0,
          removeOnSuccess := .error "boom", stopInCatch := .ok (),
          removeInCatch := .ok () } 3).1) ∧
    ((runCode (mkPendingRecord "id2" "python" "x" none 10 0)
        { createResult := .ok (), startResult := .ok (), race := .waitOk,
          logs := .ok [104], inspectExitCode := .ok 0,
          removeOnSuccess := .error "boom", stopInCatch := .ok (),
          removeInCatch := .ok () } 3).1 =
      failTerminal (mkPendingRecord "id2" "python" "x" none 10 0) "boom" 3) :=
  ⟨(spec_C1_cleanup (mkPendingRecord "id2" "python" "x" none 10 0)
      { createResult := .ok (), startResult := .ok (), race := .waitOk,
        logs := .ok [104], inspectExitCode := .ok 0,
        removeOnSuccess := .error "boom", stopInCatch := .ok (),
        removeInCatch := .ok () } 3 (.error "stop fails") (.error "remove fails") "boom").1,
   (spec_C1_cleanup (mkPendingRecord "id2" "python" "x" none 10 0)
      { createResult := .ok (), startResult := .ok (), race := .waitOk,
        logs := .ok [104], inspectExitCode := .ok 0,
        removeOnSuccess := .error "boom", stopInCatch := .ok (),
        removeInCatch := .ok () } 3 (.error "stop fails") (.error "remove fails") "boom").2
      rfl rfl rfl rfl⟩

/-! ## Claim C2: record field names -/

/-- Counterexample to C2 as stated: the record stored by a successful
submit and returned by the status lookup has no field named
timeoutSeconds. -/
theorem spec_C2_counterexample :
    (getExecutionStatus (executeCode "python" "print(1)" none none [] "id1" 0).2 "id1").map
      (fun r => (recordToJson r).lookup "timeoutSeconds") = .ok none := by decide

/-- Claim C2 (amended): the record created by submit and returned by status
carries the normalized deadline in a field named timeout (not
timeoutSeconds), alongside id, status, language, code, input, startTime,
endTime, output and error, in source order. -/
theorem spec_C2_record_fields (language code : String) (input : Option String)
    (timeout : Option Int) (store : Store) (newId : String) (t0 : Nat) (v : ValidRequest)
    (h : validateRequest language code input (preNormalizeTimeout timeout) = .ok v) :
    getExecutionStatus (executeCode language code input timeout store newId t0).2 newId =
      .ok (mkPendingRecord newId v.language v.code v.input v.timeout t0) ∧
    (recordToJson (mkPendingRecord newId v.language v.code v.input v.timeout t0)).lookup
        "timeout" = some (.n v.timeout) ∧
    (recordToJson (mkPendingRecord newId v.language v.code v.input v.timeout t0)).lookup
        "timeoutSeconds" = none ∧
    (recordToJson (mkPendingRecord newId v.language v.code v.input v.timeout t0)).map
        Prod.fst =
      ["id", "status", "language", "code", "input", "timeout", "startTime", "endTime",
        "output", "error"] := by
  refine ⟨?_, rfl, rfl, rfl⟩
  simp [executeCode, h, getExecutionStatus, storePut, List.lookup]

/-- Witness for the amended C2 at a concrete request. -/
theorem spec_C2_witness :
    getExecutionStatus (executeCode "python" "print(1)" none none [] "id1" 0).2 "id1" =
      .ok (mkPendingRecord "id1" "python" "print(1)" none 10 0) ∧
    (recordToJson (mkPendingRecord "id1" "python" "print(1)" none 10 0)).lookup "timeout" =
      some (.n 10) ∧
    (recordToJson (mkPendingRecord "id1" "python" "print(1)" none 10 0)).lookup
      "timeoutSeconds" = none ∧
    (recordToJson (mkPendingRecord "id1" "python" "print(1)" none 10 0)).map Prod.fst =
      ["id", "status", "language", "code", "input", "timeout", "startTime", "endTime",
        "output", "error"] :=
  spec_C2_record_fields "python" "print(1)" none none [] "id1" 0
    ⟨"python", "print(1)", none, 10⟩ (by decide)

/-! ## Claim C3: timeout normalization -/

/-- Claim C3: an absent timeout defaults to 10 seconds; a value above 1000
is treated as milliseconds and replaced by the ceiling of its thousandth; a
value between 1 and 1000 inclusive is kept as seconds; a value below 1 is
rejected by validation. -/
theorem spec_C3_timeout_normalization (t : Int) :
    (normalizeTimeout none = .ok 10) ∧
    (t > 1000 → normalizeTimeout (some t) = .ok ⌈(t : ℚ) / 1000⌉) ∧
    (1 ≤ t → t ≤ 1000 → normalizeTimeout (some t) = .ok t) ∧
    (t < 1 → ∃ e, normalizeTimeout (some t) = .error e) := by
  refine ⟨rfl, ?_, ?_, ?_⟩
  · intro h
    have hcond : t ≠ 0 ∧ t > 1000 := ⟨by omega, h⟩
    have hceil : (1 : Int) ≤ mathCeilDiv t 1000 := by
      rw [mathCeilDiv, Int.fdiv_eq_ediv _ (by norm_num)]
      omega
    rw [mathCeilDiv_eq_ceil] at hceil
    simp only [normalizeTimeout, preNormalizeTimeout, if_pos hcond, validateTimeout,
      mathCeilDiv_eq_ceil, if_pos hceil]
  · intro h1 h2
    have hcond : ¬ (t ≠ 0 ∧ t > 1000) := by omega
    simp only [normalizeTimeout, preNormalizeTimeout, if_neg hcond, validateTimeout,
      if_pos h1]
  · intro h
    have hcond : ¬ (t ≠ 0 ∧ t > 1000) := by omega
    have hlt : ¬ ((1 : Int) ≤ t) := by omega
    refine ⟨"\x22timeout\x22 must be greater than or equal to 1", ?_⟩
    simp only [normalizeTimeout, preNormalizeTimeout, if_neg hcond, validateTimeout,
      if_neg hlt]

/-- Witness for C3 at the boundary inputs named by the spec. -/
theorem spec_C3_witness :
    normalizeTimeout none = .ok 10 ∧
    normalizeTimeout (some 5000) = .ok ⌈((5000 : Int) : ℚ) / 1000⌉ ∧
    normalizeTimeout (some 999) = .ok 999 ∧
    normalizeTimeout (some 1000) = .ok 1000 ∧
    (∃ e, normalizeTimeout (some 0) = .error e) :=
  ⟨(spec_C3_timeout_normalization 0).1,
   (spec_C3_timeout_normalization 5000).2.1 (by decide),
   (spec_C3_timeout_normalization 999).2.2.1 (by decide) (by decide),
   (spec_C3_timeout_normalization 1000).2.2.1 (by decide) (by decide),
   (spec_C3_timeout_normalization 0).2.2.2 (by decide)⟩

/-! ## Claim C5: output-capture fallback chain -/

/-- Claim C5: a non-empty buffer in which no frame parses becomes trimmed
plain-text stdout with empty stderr; an empty buffer defers to the exit
code, a zero exit code yielding a non-empty synthetic success stdout and a
nonzero exit code an empty stdout with a non-empty stderr naming the code;
and output-capture failures alone never make the execution failed. -/
theorem spec_C5_fallbacks (buf : List Nat) (ins : Except String Int) (exitCode : Int)
    (execution : Record) (env : DockerEnv) (tEnd : Nat) :
    (buf ≠ [] →
      (parseFramesLoop buf (buf.length + 1) 0 [] []).1 = [] →
      (parseFramesLoop buf (buf.length + 1) 0 [] []).2 = [] →
      getContainerOutput (.ok buf) ins = ⟨trimBytes buf, []⟩) ∧
    (getContainerOutput (.ok []) (.ok 0) =
        ⟨utf8Bytes "Program executed successfully (no output captured)", []⟩ ∧
      (getContainerOutput (.ok []) (.ok 0)).stdout ≠ []) ∧
    (exitCode ≠ 0 →
      getContainerOutput (.ok []) (.ok exitCode) =
        ⟨[], utf8Bytes ("Container exited with code " ++ toString exitCode)⟩ ∧
      (getContainerOutput (.ok []) (.ok exitCode)).stderr ≠ []) ∧
    (env.createResult = .ok () → env.startResult = .ok () → env.race = .waitOk →
      env.removeOnSuccess = .ok () →
      (runCode execution env tEnd).1.status = .completed) := by
  refine ⟨?_, ?_, ?_, ?_⟩
  · intro h0 h1 h2
    have hpos : buf.length > 0 := List.length_pos.mpr h0
    simp [getContainerOutput, hpos, parseDockerLogs, h1, h2]
  · refine ⟨rfl, ?_⟩
    simp [getContainerOutput]
    decide
  · intro h
    constructor
    · simp [getContainerOutput, h]
    · have hpre : utf8Bytes "Container exited with code " ≠ [] := by decide
      have hs : (getContainerOutput (.ok []) (.ok exitCode)).stderr =
          utf8Bytes "Container exited with code " ++ utf8Bytes (toString exitCode) := by
        simp [getContainerOutput, h, utf8Bytes_append]
      rw [hs]
      simp [hpre]
  · intro h1 h2 h3 h4
    obtain ⟨cr, st, ra, lg, insE, rs, sc, rc⟩ := env
    dsimp only at h1 h2 h3 h4
    subst h1; subst h2; subst h3; subst h4
    simp [runCode]

/-- Witness for C5: an unframed non-empty buffer, the two empty-buffer
cases, and a run whose logs and inspect calls both fail yet which is
recorded as completed. -/
theorem spec_C5_witness :
    getContainerOutput (.ok [104, 105]) (.ok 0) = ⟨trimBytes [104, 105], []⟩ ∧
    (getContainerOutput (.ok []) (.ok 0) =
        ⟨utf8Bytes "Program executed successfully (no output captured)", []⟩ ∧
      (getContainerOutput (.ok []) (.ok 0)).stdout ≠ []) ∧
    (getContainerOutput (.ok []) (.ok 137) =
        ⟨[], utf8Bytes ("Container exited with code " ++ toString (137 : Int))⟩ ∧
      (getContainerOutput (.ok []) (.ok 137)).stderr ≠ []) ∧
    (runCode (mkPendingRecord "id3" "c" "x" none 10 0)
        { createResult := .ok (), startResult := .ok (), race := .waitOk,
          logs := .error "no logs", inspectExitCode := .error "inspect down",
          removeOnSuccess := .ok (), stopInCatch := .ok (),
          removeInCatch := .ok () } 4).1.status = .completed :=
  ⟨(spec_C5_fallbacks [104, 105] (.ok 0) 137 (mkPendingRecord "id3" "c" "x" none 10 0)
      { createResult := .ok (), startResult := .ok (), race := .waitOk,
        logs := .error "no logs", inspectExitCode := .error "inspect down",
        removeOnSuccess := .ok (), stopInCatch := .ok (),
        removeInCatch := .ok () } 4).1 (by decide) (by decide) (by decide),
   (spec_C5_fallbacks [104, 105] (.ok 0) 137 (mkPendingRecord "id3" "c" "x" none 10 0)
      { createResult := .ok (), startResult := .ok (), race := .waitOk,
        logs := .error "no logs", inspectExitCode := .error "inspect down",
        removeOnSuccess := .ok (), stopInCatch := .ok (),
        removeInCatch := .ok () } 4).2.1,
   (spec_C5_fallbacks [104, 105] (.ok 0) 137 (mkPendingRecord "id3" "c" "x" none 10 0)
      { createResult := .ok (), startResult := .ok (), race := .waitOk,
        logs := .error "no logs", inspectExitCode := .error "inspect down",
        removeOnSuccess := .ok (), stopInCatch := .ok (),
        removeInCatch := .ok () } 4).2.2.1 (by decide),
   (spec_C5_fallbacks [104, 105] (.ok 0) 137 (mkPendingRecord "id3" "c" "x" none 10 0)
      { createResult := .ok (), startResult := .ok (), race := .waitOk,
        logs := .error "no logs", inspectExitCode := .error "inspect down",
        removeOnSuccess := .ok (), stopInCatch := .ok (),
        removeInCatch := .ok () } 4).2.2.2 rfl rfl rfl rfl⟩

/-! ## Claim C6: synchronous validation failure -/

/-- Claim C6: a request whose language is unsupported, or whose code
exceeds 50000 characters, makes submit fail synchronously with a validation
error and leaves the store exactly as it was, so no record (pending or
otherwise) is ever written for it. -/
theorem spec_C6_validation_rejects (language code : String) (input : Option String)
    (timeout : Option Int) (store : Store) (newId : String) (t0 : Nat)
    (h : language ∉ supportedLanguages ∨ code.length > 50000) :
    (executeCode language code input timeout store newId t0).2 = store ∧
    ∃ e, (executeCode language code input timeout store newId t0).1 = .error e := by
  have hval : ∃ msg,
      validateRequest language code input (preNormalizeTimeout timeout) = .error msg := by
    rcases h with h | h
    · exact ⟨"\x22language\x22 must be one of [javascript, python, java, cpp, c]",
        by simp [validateRequest, h]⟩
    · by_cases hl : language ∈ supportedLanguages
      · exact ⟨"\x22code\x22 length must be less than or equal to 50000 characters long",
          by simp [validateRequest, hl, h]⟩
      · exact ⟨"\x22language\x22 must be one of [javascript, python, java, cpp, c]",
          by simp [validateRequest, hl]⟩
  obtain ⟨msg, hmsg⟩ := hval
  simp [executeCode, hmsg]

/-- Witness for C6: a ruby request against an empty store. -/
theorem spec_C6_witness :
    (executeCode "ruby" "puts 1" none none [] "id1" 0).2 = [] ∧
    ∃ e, (executeCode "ruby" "puts 1" none none [] "id1" 0).1 = .error e :=
  spec_C6_validation_rejects "ruby" "puts 1" none none [] "id1" 0 (Or.inl (by decide))

/-! ## Claim C7: terminal-once invariant -/

/-- Claim C7: in the write sequence of one execution, the end timestamp is
set exactly on the terminal statuses, and once a written record is terminal
no later write differs from it. -/
theorem spec_C7_terminal_once (id language code : String) (input : Option String)
    (timeout : Int) (t0 tEnd : Nat) (env : DockerEnv) :
    (∀ r ∈ executionTrace id language code input timeout t0 tEnd env,
        (r.endTime ≠ none ↔ IsTerminal r)) ∧
    (∀ i j : Nat, j < (executionTrace id language code input timeout t0 tEnd env).length →
      i ≤ j →
      IsTerminal ((executionTrace id language code input timeout t0 tEnd env).getD i
        (mkPendingRecord id language code input timeout t0)) →
      (executionTrace id language code input timeout t0 tEnd env).getD j
        (mkPendingRecord id language code input timeout t0) =
      (executionTrace id language code input timeout t0 tEnd env).getD i
        (mkPendingRecord id language code input timeout t0)) := by
  have hterm := runCode_terminal (mkPendingRecord id language code input timeout t0) env tEnd
  constructor
  · intro r hr
    simp only [executionTrace, List.mem_cons, List.mem_singleton] at hr
    rcases hr with h | h | h
    · subst h
      simp [mkPendingRecord, IsTerminal]
    · subst h
      constructor
      · intro _
        exact hterm.2
      · intro _
        rw [hterm.1]
        simp
    · exact absurd h (by simp)
  · intro i j hj hij hi
    simp only [executionTrace, List.length_cons, List.length_nil] at hj
    match i, hi with
    | 0, hi =>
      exfalso
      revert hi
      simp [executionTrace, mkPendingRecord, IsTerminal]
    | 1, hi =>
      have hj1 : j = 1 := by omega
      subst hj1
      rfl
    | n + 2, hi => omega

/-- Witness for C7 at a concrete successful execution. -/
theorem spec_C7_witness :
    (((executionTrace "id1" "python" "x" none 10 0 5
        ⟨.ok (), .ok (), .waitOk, .ok [104], .ok 0, .ok (), .ok (), .ok ()⟩).getD 1
        (mkPendingRecord "id1" "python" "x" none 10 0)).endTime ≠ none ↔
      IsTerminal ((executionTrace "id1" "python" "x" none 10 0 5
        ⟨.ok (), .ok (), .waitOk, .ok [104], .ok 0, .ok (), .ok (), .ok ()⟩).getD 1
        (mkPendingRecord "id1" "python" "x" none 10 0))) ∧
    (executionTrace "id1" "python" "x" none 10 0 5
        ⟨.ok (), .ok (), .waitOk, .ok [104], .ok 0, .ok (), .ok (), .ok ()⟩).getD 1
        (mkPendingRecord "id1" "python" "x" none 10 0) =
      (executionTrace "id1" "python" "x" none 10 0 5
        ⟨.ok (), .ok (), .waitOk, .ok [104], .ok 0, .ok (), .ok (), .ok ()⟩).getD 1
        (mkPendingRecord "id1" "python" "x" none 10 0) :=
  ⟨(spec_C7_terminal_once "id1" "python" "x" none 10 0 5
      ⟨.ok (), .ok (), .waitOk, .ok [104], .ok 0, .ok (), .ok (), .ok ()⟩).1 _ (by decide),
   (spec_C7_terminal_once "id1" "python" "x" none 10 0 5
      ⟨.ok (), .ok (), .waitOk, .ok [104], .ok 0, .ok (), .ok (), .ok ()⟩).2 1 1
      (by decide) (by decide) (by decide)⟩

/-! ## Claim C8: timeout outcome -/

/-- Claim C8: when the deadline wins the race the terminal record is failed
with the fixed timeout message in the error field, and the output field of
the pending record is left untouched (no partial output is recovered). -/
theorem spec_C8_timeout (id language code : String) (input : Option String)
    (timeout : Int) (t0 tEnd : Nat) (env : DockerEnv)
    (hc : env.createResult = .ok ()) (hs : env.startResult = .ok ())
    (hr : env.race = .timedOut) :
    (runCode (mkPendingRecord id language code input timeout t0) env tEnd).1.status =
      .failed ∧
    (runCode (mkPendingRecord id language code input timeout t0) env tEnd).1.error =
      some (utf8Bytes "Execution timeout") ∧
    (runCode (mkPendingRecord id language code input timeout t0) env tEnd).1.output =
      none := by
  obtain ⟨cr, st, ra, lg, ins, rs, sc, rc⟩ := env
  dsimp only at hc hs hr
  subst hc; subst hs; subst hr
  simp [runCode, failTerminal, mkPendingRecord]

/-- Witness for C8 at a concrete timed-out run. -/
theorem spec_C8_witness :
    (runCode (mkPendingRecord "id4" "cpp" "int main()" none 3 0)
        ⟨.ok (), .ok (), .timedOut, .ok [], .ok 0, .ok (), .ok (), .ok ()⟩ 9).1.status =
      .failed ∧
    (runCode (mkPendingRecord "id4" "cpp" "int main()" none 3 0)
        ⟨.ok (), .ok (), .timedOut, .ok [], .ok 0, .ok (), .ok (), .ok ()⟩ 9).1.error =
      some (utf8Bytes "Execution timeout") ∧
    (runCode (mkPendingRecord "id4" "cpp" "int main()" none 3 0)
        ⟨.ok (), .ok (), .timedOut, .ok [], .ok 0, .ok (), .ok (), .ok ()⟩ 9).1.output =
      none :=
  spec_C8_timeout "id4" "cpp" "int main()" none 3 0 9
    ⟨.ok (), .ok (), .timedOut, .ok [], .ok 0, .ok (), .ok (), .ok ()⟩ rfl rfl rfl

/-! ## Claim C9: request input never reaches the container -/

/-- Claim C9: the container creation arguments are built only from the code
and the language profile; two requests differing only in input produce an
identical call, and its command array is the explicit shell template with
no mention of the input. -/
theorem spec_C9_input_unused (config : LangConfig) (code : String)
    (input1 input2 : Option String) :
    createContainerArgs config code input1 = createContainerArgs config code input2 ∧
    (createContainerArgs config code input1).Cmd =
      ["sh", "-c",
        "echo \x27" ++ escapeSingleQuotes code ++ "\x27 > " ++ ("main" ++ config.extension)
          ++ " && " ++ config.runCommand ("main" ++ config.extension)] :=
  ⟨rfl, rfl⟩

/-! ## Claim C10: program exit codes never produce a failed record -/

/-- Claim C10: a run whose container starts, exits on its own with logs in
the buffer, and is removed cleanly is recorded as completed with the parsed
stderr in the error field, whatever its exit code; the failed status arises
only from a thrown exception (creation or start failure, timeout, or an
engine error such as a failing wait or remove). -/
theorem spec_C10_exit_code (execution : Record) (env : DockerEnv) (buf : List Nat)
    (tEnd : Nat) :
    (env.createResult = .ok () → env.startResult = .ok () → env.race = .waitOk →
      env.logs = .ok buf → buf ≠ [] → env.removeOnSuccess = .ok () →
      (runCode execution env tEnd).1.status = .completed ∧
      (runCode execution env tEnd).1.error = some (parseDockerLogs buf).stderr ∧
      (runCode execution env tEnd).1.output = some (parseDockerLogs buf).stdout) ∧
    ((runCode execution env tEnd).1.status = .failed →
      env.createResult = .ok () → env.startResult = .ok () →
      env.removeOnSuccess = .ok () →
      env.race = .timedOut ∨ ∃ m, env.race = .waitErr m) := by
  obtain ⟨cr, st, ra, lg, ins, rs, sc, rc⟩ := env
  constructor
  · intro h1 h2 h3 h4 h5 h6
    dsimp only at h1 h2 h3 h4 h6
    subst h1; subst h2; subst h3; subst h4; subst h6
    have hpos : buf.length > 0 := List.length_pos.mpr h5
    simp [runCode, getContainerOutput, hpos]
  · intro hfail h1 h2 h6
    dsimp only at h1 h2 h6
    subst h1; subst h2; subst h6
    cases ra with
    | waitOk =>
      exfalso
      revert hfail
      simp [runCode]
    | waitErr m => exact Or.inr ⟨m, rfl⟩
    | timedOut => exact Or.inl rfl

/-- Witness for C10: a container that exits with code 1 while producing a
stderr frame is recorded as completed with that stderr in the error
field. -/
theorem spec_C10_witness :
    (runCode (mkPendingRecord "id5" "c" "x" none 10 0)
        ⟨.ok (), .ok (), .waitOk, .ok (encodeFrames [⟨2, [101, 114, 114]⟩]), .ok 1,
          .ok (), .ok (), .ok ()⟩ 6).1.status = .completed ∧
    (runCode (mkPendingRecord "id5" "c" "x" none 10 0)
        ⟨.ok (), .ok (), .waitOk, .ok (encodeFrames [⟨2, [101, 114, 114]⟩]), .ok 1,
          .ok (), .ok (), .ok ()⟩ 6).1.error =
      some (parseDockerLogs (encodeFrames [⟨2, [101, 114, 114]⟩])).stderr ∧
    (runCode (mkPendingRecord "id5" "c" "x" none 10 0)
        ⟨.ok (), .ok (), .waitOk, .ok (encodeFrames [⟨2, [101, 114, 114]⟩]), .ok 1,
          .ok (), .ok (), .ok ()⟩ 6).1.output =
      some (parseDockerLogs (encodeFrames [⟨2, [101, 114, 114]⟩])).stdout :=
  (spec_C10_exit_code (mkPendingRecord "id5" "c" "x" none 10 0)
      ⟨.ok (), .ok (), .waitOk, .ok (encodeFrames [⟨2, [101, 114, 114]⟩]), .ok 1,
        .ok (), .ok (), .ok ()⟩ (encodeFrames [⟨2, [101, 114, 114]⟩]) 6).1
    rfl rfl rfl rfl (by decide) rfl

end CodeJoin
